import Mathlib

/-!
Shallow embedding of the optparse command-line parser (optparse.h).

C strings are modelled as `List Char` (no interior NUL characters); reading a
character at an index uses `strAt`, whose out-of-range default `Char.ofNat 0`
plays the role of the terminating NUL of a C string.  The NULL-terminated
`argv` array is modelled as `List (List Char)`, with `argv[i]` reads becoming
`List.get?` (out-of-range reads model the terminating NULL pointer).  The
mutable `struct optparse` becomes the record `optparse_t`, and each C function
returns the updated record next to its C return value.
-/

/-- Read a character of a C string; index `i` at or past the end yields the
NUL terminator. -/
def strAt (s : List Char) (i : Nat) : Char := s.getD i (Char.ofNat 0)

/-- The parser state `struct optparse` / `optparse_t`. -/
structure optparse_t where
  argv    : List (List Char)
  permute : Bool
  optind  : Nat
  optopt  : Int
  optarg  : Option (List Char)
  errmsg  : List Char
  subopt  : Nat
  deriving Repr, DecidableEq

/-- `OPTPARSE_NONE` of `enum optparse_argtype`. -/
def OPTPARSE_NONE : Nat := 0

/-- `OPTPARSE_REQUIRED` of `enum optparse_argtype`. -/
def OPTPARSE_REQUIRED : Nat := 1

/-- `OPTPARSE_OPTIONAL` of `enum optparse_argtype`. -/
def OPTPARSE_OPTIONAL : Nat := 2

/-- A long option descriptor `struct optparse_long`; `longname = none`
models a NULL `longname` pointer. -/
structure optparse_long_t where
  longname  : Option (List Char)
  shortname : Int
  argtype   : Nat
  deriving Repr, DecidableEq

def OPTPARSE_MSG_INVALID : List Char := "invalid option".toList
def OPTPARSE_MSG_MISSING : List Char := "option requires an argument".toList
def OPTPARSE_MSG_TOOMANY : List Char := "option takes no arguments".toList

/-- The message text built by `optparse__error` into the 64-byte `errmsg`
buffer: `msg` while `p < 63`, then `" -- '"` while `p < 63`, then `data`
while `p < 62`, then a closing quote if `p < 63`. -/
def optparse__error_fmt (msg data : List Char) : List Char :=
  let m1 := msg.take 63
  let m2 := m1 ++ (" -- '".toList.take (63 - m1.length))
  let m3 := m2 ++ data.take (62 - m2.length)
  if m3.length < 63 then m3 ++ [Char.ofNat 39] else m3

/-- `optparse__error`: fill `errmsg` and return `'?'` (code 63). -/
def optparse__error (options : optparse_t) (msg data : List Char) :
    optparse_t × Int :=
  ({ options with errmsg := optparse__error_fmt msg data }, 63)

/-- `optparse__is_dashdash`: the token is exactly `--`. -/
def optparse__is_dashdash (arg : List Char) : Bool :=
  (strAt arg 0 == '-') && (strAt arg 1 == '-') && (strAt arg 2 == Char.ofNat 0)

/-- `optparse__is_shortopt`: a dash followed by a non-dash, non-NUL char. -/
def optparse__is_shortopt (arg : List Char) : Bool :=
  (strAt arg 0 == '-') && (strAt arg 1 != '-') && (strAt arg 1 != Char.ofNat 0)

/-- `optparse__is_longopt`: two dashes followed by at least one char. -/
def optparse__is_longopt (arg : List Char) : Bool :=
  (strAt arg 0 == '-') && (strAt arg 1 == '-') && (strAt arg 2 != Char.ofNat 0)

/-- The `for` loop of `optparse__permute`: perform `k` steps of
`argv[i] = argv[i+1]` starting at index `i`. -/
def optparse__shift (argv : List (List Char)) (i : Nat) : Nat → List (List Char)
  | 0 => argv
  | k + 1 => optparse__shift (argv.set i (argv.getD (i + 1) [])) (i + 1) k

/-- `optparse__permute`: rotate `argv[index]` to position `optind - 1`,
shifting the elements in between one slot to the left. -/
def optparse__permute (options : optparse_t) (index : Nat) : optparse_t :=
  let nonoption := options.argv.getD index []
  let argv := optparse__shift options.argv index (options.optind - 1 - index)
  { options with argv := argv.set (options.optind - 1) nonoption }

/-- `optparse__argtype`: look `c` up in the option string; `-1` when absent
or when `c` is the reserved `:`; otherwise the number of trailing colons
(0, 1 or 2). -/
def optparse__argtype (optstring : List Char) (c : Char) : Int :=
  if c == ':' then -1
  else
    let rest := optstring.dropWhile (fun x => x != c)
    if rest.isEmpty then -1
    else if strAt rest 1 == ':' then (if strAt rest 2 == ':' then 2 else 1)
    else 0

/-- `optparse_longopts_end`: the terminating descriptor (NULL name,
zero short name). -/
def optparse_longopts_end (o : optparse_long_t) : Bool :=
  o.longname.isNone && o.shortname == 0

/-- `optparse__from_long`: synthesize a short option string from the long
descriptor table; entries with a short name in `(0, 127)` contribute their
character followed by `argtype` colons. -/
def optparse__from_long : List optparse_long_t → List Char
  | [] => []
  | o :: rest =>
    if optparse_longopts_end o then []
    else
      (if 0 < o.shortname ∧ o.shortname < 127 then
        Char.ofNat o.shortname.toNat :: List.replicate o.argtype ':'
      else []) ++ optparse__from_long rest

/-- The comparison loop of `optparse__longopts_match`: first argument is the
token text (after the dashes), second the descriptor name. -/
def optparse__match_go : List Char → List Char → Bool
  | [], n => n.isEmpty
  | a :: _, [] => a == '='
  | a :: ta, n :: tn =>
    if a == '=' then false
    else if a != n then false
    else optparse__match_go ta tn

/-- `optparse__longopts_match`: NULL name never matches; otherwise the name
must equal the token text up to end-of-token or a literal `=`. -/
def optparse__longopts_match (longname : Option (List Char)) (option : List Char) :
    Bool :=
  match longname with
  | none => false
  | some n => optparse__match_go option n

/-- `optparse__longopts_arg`: the text after the first `=`, or `none`. -/
def optparse__longopts_arg (option : List Char) : Option (List Char) :=
  match option.dropWhile (fun x => x != '=') with
  | [] => none
  | _ :: t => some t

/-- `optparse_init`: fresh state over `argv`; `optind` starts at 1 when a
program-name token is present. -/
def optparse_init (argv : List (List Char)) : optparse_t :=
  { argv := argv
    permute := true
    optind := if argv.get? 0 ≠ none then 1 else 0
    subopt := 0
    optarg := none
    optopt := 0
    errmsg := [] }

/-- `optparse`: parse the next short option.  Returns the updated state and
the C return value (option character code, `-1` when done, 63 = `'?'` on
error). -/
def optparse (options : optparse_t) (optstring : List Char) :
    optparse_t × Int :=
  let o0 := { options with errmsg := [], optopt := 0, optarg := none }
  match h : options.argv.get? options.optind with
  | none => (o0, -1)
  | some option =>
    if optparse__is_dashdash option then
      ({ o0 with optind := o0.optind + 1 }, -1)
    else if !optparse__is_shortopt option then
      if o0.permute then
        let index := o0.optind
        let r := optparse
          { options with
            errmsg := ([] : List Char), optopt := 0, optarg := none,
            optind := options.optind + 1 } optstring
        let o1 := optparse__permute r.1 index
        ({ o1 with optind := o1.optind - 1 }, r.2)
      else
        (o0, -1)
    else
      let opt := option.drop (o0.subopt + 1)
      let o1 := { o0 with optopt := ((strAt opt 0).toNat : Int) }
      let type := optparse__argtype optstring (strAt opt 0)
      let next := o1.argv.get? (o1.optind + 1)
      if type = -1 then
        let str := [strAt opt 0]
        let o2 := { o1 with optind := o1.optind + 1, subopt := 0 }
        optparse__error o2 OPTPARSE_MSG_INVALID str
      else if type = 0 then
        let o2 :=
          if strAt opt 1 != Char.ofNat 0 then
            { o1 with subopt := o1.subopt + 1 }
          else
            { o1 with subopt := 0, optind := o1.optind + 1 }
        (o2, ((strAt opt 0).toNat : Int))
      else if type = 1 then
        let o2 := { o1 with subopt := 0, optind := o1.optind + 1 }
        if strAt opt 1 != Char.ofNat 0 then
          ({ o2 with optarg := some (opt.drop 1) }, ((strAt opt 0).toNat : Int))
        else
          match next with
          | some nx =>
            ({ o2 with optarg := some nx, optind := o2.optind + 1 },
              ((strAt opt 0).toNat : Int))
          | none =>
            let str := [strAt opt 0]
            optparse__error { o2 with optarg := none } OPTPARSE_MSG_MISSING str
      else if type = 2 then
        let o2 := { o1 with subopt := 0, optind := o1.optind + 1 }
        ({ o2 with
            optarg := if strAt opt 1 != Char.ofNat 0 then some (opt.drop 1) else none },
          ((strAt opt 0).toNat : Int))
      else
        (o1, 0)
termination_by options.argv.length - options.optind
decreasing_by
  have hlt : options.optind < options.argv.length := by
    by_contra hge
    rw [List.get?_eq_none.mpr (Nat.le_of_not_lt hge)] at h
    exact Option.noConfusion h
  omega

/-- `optparse_arg`: return the token at `optind` (or NULL), clear `subopt`,
and advance `optind` past a returned token. -/
def optparse_arg (options : optparse_t) : optparse_t × Option (List Char) :=
  let option := options.argv.get? options.optind
  let options := { options with subopt := 0 }
  match option with
  | some o => ({ options with optind := options.optind + 1 }, some o)
  | none => (options, none)

/-- The search loop of `optparse__long_fallback`: index of the first
descriptor (before the terminator) whose `shortname` equals `optopt`. -/
def optparse__longindex_search (optopt : Int) :
    List optparse_long_t → Int → Option Int
  | [], _ => none
  | o :: rest, i =>
    if optparse_longopts_end o then none
    else if o.shortname = optopt then some i
    else optparse__longindex_search optopt rest (i + 1)

/-- `optparse__long_fallback`: delegate a short-style token to `optparse`
with the synthesized option string; when an index slot is supplied it is set
to `-1` and then, if the result is not `-1`, to the index of the first
descriptor whose `shortname` equals the resulting `optopt`. -/
def optparse__long_fallback (options : optparse_t)
    (longopts : List optparse_long_t) (longindex : Option Int) :
    optparse_t × Int × Option Int :=
  let optstring := optparse__from_long longopts
  let r := optparse options optstring
  let longindex :=
    match longindex with
    | none => none
    | some _ =>
      if r.2 ≠ -1 then
        match optparse__longindex_search r.1.optopt longopts 0 with
        | some i => some i
        | none => some (-1)
      else some (-1)
  (r.1, r.2, longindex)

/-- The descriptor-table loop of `optparse_long`: `option` is the token text
after the two dashes, `i` the current table index; falling off the table (or
hitting the terminator) reports an invalid option. -/
def optparse__long_loop (options : optparse_t) (longindex : Option Int)
    (option : List Char) : List optparse_long_t → Int →
    optparse_t × Int × Option Int
  | [], _ =>
    let e := optparse__error options OPTPARSE_MSG_INVALID option
    (e.1, e.2, longindex)
  | o :: rest, i =>
    if optparse_longopts_end o then
      let e := optparse__error options OPTPARSE_MSG_INVALID option
      (e.1, e.2, longindex)
    else if !optparse__longopts_match o.longname option then
      optparse__long_loop options longindex option rest (i + 1)
    else
      let longindex := match longindex with | none => none | some _ => some i
      let options := { options with optopt := o.shortname }
      let name := o.longname.getD []
      let arg := optparse__longopts_arg option
      if o.argtype = OPTPARSE_NONE ∧ arg.isSome then
        let e := optparse__error options OPTPARSE_MSG_TOOMANY name
        (e.1, e.2, longindex)
      else
        match arg with
        | some a => ({ options with optarg := some a }, o.shortname, longindex)
        | none =>
          if o.argtype = OPTPARSE_REQUIRED then
            match options.argv.get? options.optind with
            | none =>
              let e := optparse__error { options with optarg := none }
                OPTPARSE_MSG_MISSING name
              (e.1, e.2, longindex)
            | some nx =>
              ({ options with optarg := some nx, optind := options.optind + 1 },
                o.shortname, longindex)
          else
            (options, o.shortname, longindex)

/-- `optparse_long`: parse the next option, long or short; `longindex` models
the `int *longindex` slot (`none` for a NULL pointer, `some v` for a pointer
whose current content is `v`); the returned third component is the slot's
content after the call. -/
def optparse_long (options : optparse_t) (longopts : List optparse_long_t)
    (longindex : Option Int) : optparse_t × Int × Option Int :=
  match h : options.argv.get? options.optind with
  | none => (options, -1, longindex)
  | some option =>
    if optparse__is_dashdash option then
      ({ options with optind := options.optind + 1 }, -1, longindex)
    else if optparse__is_shortopt option then
      optparse__long_fallback options longopts longindex
    else if !optparse__is_longopt option then
      if options.permute then
        let index := options.optind
        let r := optparse_long { options with optind := options.optind + 1 }
          longopts longindex
        let o2 := optparse__permute r.1 index
        ({ o2 with optind := o2.optind - 1 }, r.2.1, r.2.2)
      else
        (options, -1, longindex)
    else
      let o1 :=
        { options with
          errmsg := ([] : List Char), optopt := 0, optarg := none,
          optind := options.optind + 1 }
      optparse__long_loop o1 longindex (option.drop 2) longopts 0
termination_by options.argv.length - options.optind
decreasing_by
  have hlt : options.optind < options.argv.length := by
    by_contra hge
    rw [List.get?_eq_none.mpr (Nat.le_of_not_lt hge)] at h
    exact Option.noConfusion h
  omega

/-! ### Helper lemmas about token classification -/

/-- A short-option token is never the standalone double dash. -/
lemma shortopt_not_dashdash {tok : List Char}
    (h : optparse__is_shortopt tok = true) :
    optparse__is_dashdash tok = false := by
  simp only [optparse__is_shortopt, Bool.and_eq_true, beq_iff_eq, bne_iff_ne] at h
  simp [optparse__is_dashdash, h.1.2]

/-- A long-option token is never a short-option token. -/
lemma longopt_not_shortopt {tok : List Char}
    (h : optparse__is_longopt tok = true) :
    optparse__is_shortopt tok = false := by
  simp only [optparse__is_longopt, Bool.and_eq_true, beq_iff_eq, bne_iff_ne] at h
  simp [optparse__is_shortopt, h.1.2]

/-- A long-option token is never the standalone double dash. -/
lemma longopt_not_dashdash {tok : List Char}
    (h : optparse__is_longopt tok = true) :
    optparse__is_dashdash tok = false := by
  simp only [optparse__is_longopt, Bool.and_eq_true, beq_iff_eq, bne_iff_ne] at h
  simp [optparse__is_dashdash, h.2]

/-! ### Concrete scenarios -/

/-- Token array of the end-to-end short-option scenario. -/
def scenario_argv : List (List Char) :=
  ["prog", "-a", "-b", "-cred", "-d", "10", "-e"].map String.toList

/-- Short option specification of the end-to-end scenario:
`a`, `b`, `e` take no value; `c`, `d` require one. -/
def scenario_optstring : List Char := "abc:d:e".toList

/-- C1: over tokens `[prog, -a, -b, -cred, -d, 10, -e]` and specification
`abc:d:e`, six successive `optparse` calls return `a`, `b`, `c` with
argument `red`, `d` with argument `10`, `e`, then `-1`, and a subsequent
`optparse_arg` call returns no positional. -/
theorem C1_end_to_end_short_scenario :
    (optparse (optparse_init scenario_argv) scenario_optstring).2 =
        ('a'.toNat : Int) ∧
    (let p1 := optparse (optparse_init scenario_argv) scenario_optstring
     let p2 := optparse p1.1 scenario_optstring
     let p3 := optparse p2.1 scenario_optstring
     let p4 := optparse p3.1 scenario_optstring
     let p5 := optparse p4.1 scenario_optstring
     let p6 := optparse p5.1 scenario_optstring
     let p7 := optparse_arg p6.1
     p2.2 = ('b'.toNat : Int) ∧
       p3.2 = ('c'.toNat : Int) ∧ p3.1.optarg = some "red".toList ∧
       p4.2 = ('d'.toNat : Int) ∧ p4.1.optarg = some "10".toList ∧
       p5.2 = ('e'.toNat : Int) ∧ p6.2 = -1 ∧ p7.2 = none) := by
  simp [optparse, optparse_init, optparse_arg, scenario_argv, scenario_optstring,
    optparse__is_dashdash, optparse__is_shortopt, optparse__argtype, strAt]

/-- C9: when the token at the cursor is exactly `--`, both `optparse` and
`optparse_long` advance the cursor past it and return the done sentinel
`-1`, whatever the permutation mode, leaving the token array untouched so
every following token stays available as a positional. -/
theorem C9_dashdash_terminates (st : optparse_t) (s : List Char)
    (longopts : List optparse_long_t) (li : Option Int) (tok : List Char)
    (htok : st.argv.get? st.optind = some tok) (hdd : tok = ['-', '-']) :
    optparse st s =
      ({ st with
         errmsg := ([] : List Char), optopt := 0, optarg := none,
         optind := st.optind + 1 }, -1) ∧
    optparse_long st longopts li =
      ({ st with optind := st.optind + 1 }, -1, li) ∧
    (optparse_arg (optparse st s).1).2 = st.argv.get? (st.optind + 1) ∧
    (optparse_arg (optparse_long st longopts li).1).2 =
      st.argv.get? (st.optind + 1) := by
  subst hdd
  have hd : optparse__is_dashdash ['-', '-'] = true := by decide
  have hs : optparse__is_shortopt ['-', '-'] = false := by decide
  have h1 : optparse st s =
      ({ st with
         errmsg := ([] : List Char), optopt := 0, optarg := none,
         optind := st.optind + 1 }, -1) := by
    rw [optparse.eq_def]
    split
    next heq => rw [htok] at heq; exact absurd heq (by simp)
    next option heq =>
      rw [htok] at heq
      injection heq with heq
      subst heq
      simp [hd]
  have h2 : optparse_long st longopts li =
      ({ st with optind := st.optind + 1 }, -1, li) := by
    rw [optparse_long.eq_def]
    split
    next heq => rw [htok] at heq; exact absurd heq (by simp)
    next option heq =>
      rw [htok] at heq
      injection heq with heq
      subst heq
      simp [hd]
  refine ⟨h1, h2, ?_, ?_⟩
  · rw [h1]
    simp only [optparse_arg]
    cases h3 : st.argv.get? (st.optind + 1) <;> simp [h3]
  · rw [h2]
    simp only [optparse_arg]
    cases h3 : st.argv.get? (st.optind + 1) <;> simp [h3]

/-- C9 witness: the scenario `[prog, --, -x]`. -/
theorem C9_witness :
    ((optparse_init (["prog", "--", "-x"].map String.toList)).argv.get?
        (optparse_init (["prog", "--", "-x"].map String.toList)).optind =
      some ['-', '-']) ∧
    (optparse (optparse_init (["prog", "--", "-x"].map String.toList))
        scenario_optstring).2 = -1 := by
  have h := C9_dashdash_terminates
    (optparse_init (["prog", "--", "-x"].map String.toList))
    scenario_optstring [] none ['-', '-'] (by decide) rfl
  exact ⟨by decide, by rw [h.1]⟩

/-- The error text for a missing required argument of a short flag. -/
lemma fmt_missing_char (c : Char) :
    optparse__error_fmt OPTPARSE_MSG_MISSING [c] =
      OPTPARSE_MSG_MISSING ++ " -- '".toList ++ [c, Char.ofNat 39] := by
  rfl

/-- C3: a short flag with an optional value takes as its argument exactly
the characters following it in the same token, or no argument when the flag
is the token's last character; the cursor advances one token only, so the
following token is never consumed and stays the next positional. -/
theorem C3_short_optional_value (st : optparse_t) (s tok : List Char)
    (htok : st.argv.get? st.optind = some tok)
    (hshort : optparse__is_shortopt tok = true)
    (hopty : optparse__argtype s (strAt (tok.drop (st.subopt + 1)) 0) = 2) :
    optparse st s =
      ({ st with
         errmsg := ([] : List Char),
         optopt := ((strAt (tok.drop (st.subopt + 1)) 0).toNat : Int),
         optarg := if strAt (tok.drop (st.subopt + 1)) 1 != Char.ofNat 0
           then some (tok.drop (st.subopt + 2)) else none,
         subopt := 0, optind := st.optind + 1 },
        ((strAt (tok.drop (st.subopt + 1)) 0).toNat : Int)) ∧
    (optparse_arg (optparse st s).1).2 = st.argv.get? (st.optind + 1) := by
  have hdd := shortopt_not_dashdash hshort
  have h1 : optparse st s =
      ({ st with
         errmsg := ([] : List Char),
         optopt := ((strAt (tok.drop (st.subopt + 1)) 0).toNat : Int),
         optarg := if strAt (tok.drop (st.subopt + 1)) 1 != Char.ofNat 0
           then some (tok.drop (st.subopt + 2)) else none,
         subopt := 0, optind := st.optind + 1 },
        ((strAt (tok.drop (st.subopt + 1)) 0).toNat : Int)) := by
    rw [optparse.eq_def]
    split
    next heq => rw [htok] at heq; exact absurd heq (by simp)
    next option heq =>
      rw [htok] at heq
      injection heq with heq
      subst heq
      simp only [hdd, hshort, hopty]
      norm_num
  refine ⟨h1, ?_⟩
  rw [h1]
  simp only [optparse_arg]
  cases h3 : st.argv.get? (st.optind + 1) <;> simp [h3]

/-- C3 witness: `[prog, -o, val]` with specification `o::`. -/
theorem C3_witness :
    ((optparse_init (["prog", "-o", "val"].map String.toList)).argv.get?
        (optparse_init (["prog", "-o", "val"].map String.toList)).optind =
      some ['-', 'o']) ∧
    optparse__is_shortopt ['-', 'o'] = true ∧
    optparse__argtype "o::".toList
      (strAt (['-', 'o'].drop
        ((optparse_init (["prog", "-o", "val"].map String.toList)).subopt + 1)) 0) = 2 ∧
    (optparse_arg (optparse
        (optparse_init (["prog", "-o", "val"].map String.toList)) "o::".toList).1).2 =
      (optparse_init (["prog", "-o", "val"].map String.toList)).argv.get?
        ((optparse_init (["prog", "-o", "val"].map String.toList)).optind + 1) :=
  ⟨by decide, by decide, by decide,
   (C3_short_optional_value (optparse_init (["prog", "-o", "val"].map String.toList))
     "o::".toList ['-', 'o'] (by decide) (by decide) (by decide)).2⟩

/-- C4: a short flag with a required value takes the rest of its token as
the argument when characters follow it; otherwise the whole next token when
one exists (advancing the cursor past both); otherwise the call returns `?`
with the message `option requires an argument` recording the flag character
and no argument. -/
theorem C4_short_required_value (st : optparse_t) (s tok : List Char)
    (htok : st.argv.get? st.optind = some tok)
    (hshort : optparse__is_shortopt tok = true)
    (hreq : optparse__argtype s (strAt (tok.drop (st.subopt + 1)) 0) = 1) :
    (strAt (tok.drop (st.subopt + 1)) 1 ≠ Char.ofNat 0 →
      optparse st s =
        ({ st with
           errmsg := ([] : List Char),
           optopt := ((strAt (tok.drop (st.subopt + 1)) 0).toNat : Int),
           optarg := some (tok.drop (st.subopt + 2)),
           subopt := 0, optind := st.optind + 1 },
          ((strAt (tok.drop (st.subopt + 1)) 0).toNat : Int))) ∧
    (strAt (tok.drop (st.subopt + 1)) 1 = Char.ofNat 0 →
      ∀ nx, st.argv.get? (st.optind + 1) = some nx →
      optparse st s =
        ({ st with
           errmsg := ([] : List Char),
           optopt := ((strAt (tok.drop (st.subopt + 1)) 0).toNat : Int),
           optarg := some nx,
           subopt := 0, optind := st.optind + 2 },
          ((strAt (tok.drop (st.subopt + 1)) 0).toNat : Int))) ∧
    (strAt (tok.drop (st.subopt + 1)) 1 = Char.ofNat 0 →
      st.argv.get? (st.optind + 1) = none →
      optparse st s =
        ({ st with
           errmsg := OPTPARSE_MSG_MISSING ++ " -- '".toList ++
             [strAt (tok.drop (st.subopt + 1)) 0, Char.ofNat 39],
           optopt := ((strAt (tok.drop (st.subopt + 1)) 0).toNat : Int),
           optarg := none,
           subopt := 0, optind := st.optind + 1 },
          63)) := by
  have hdd := shortopt_not_dashdash hshort
  refine ⟨fun hinline => ?_, fun hend nx hnx => ?_, fun hend hnone => ?_⟩
  · rw [optparse.eq_def]
    split
    next heq => rw [htok] at heq; exact absurd heq (by simp)
    next option heq =>
      rw [htok] at heq
      injection heq with heq
      subst heq
      simp only [hdd, hshort, hreq]
      norm_num
      simp [hinline]
  · rw [optparse.eq_def]
    split
    next heq => rw [htok] at heq; exact absurd heq (by simp)
    next option heq =>
      rw [htok] at heq
      injection heq with heq
      subst heq
      rw [List.get?_eq_getElem?] at hnx
      simp only [hdd, hshort, hreq]
      norm_num
      simp [hend, hnx]
  · rw [optparse.eq_def]
    split
    next heq => rw [htok] at heq; exact absurd heq (by simp)
    next option heq =>
      rw [htok] at heq
      injection heq with heq
      subst heq
      rw [List.get?_eq_getElem?] at hnone
      simp only [hdd, hshort, hreq]
      norm_num
      simp [hend, hnone, optparse__error, fmt_missing_char]

/-- C4 witness: `[prog, -d, 10]` with specification `d:` takes the separate
token `10` as the required value. -/
theorem C4_witness :
    ((optparse_init (["prog", "-d", "10"].map String.toList)).argv.get?
        (optparse_init (["prog", "-d", "10"].map String.toList)).optind =
      some ['-', 'd']) ∧
    optparse__is_shortopt ['-', 'd'] = true ∧
    optparse__argtype "d:".toList
      (strAt (['-', 'd'].drop
        ((optparse_init (["prog", "-d", "10"].map String.toList)).subopt + 1)) 0) = 1 ∧
    strAt (['-', 'd'].drop
      ((optparse_init (["prog", "-d", "10"].map String.toList)).subopt + 1)) 1 =
      Char.ofNat 0 ∧
    (optparse_init (["prog", "-d", "10"].map String.toList)).argv.get?
      ((optparse_init (["prog", "-d", "10"].map String.toList)).optind + 1) =
      some "10".toList ∧
    (optparse (optparse_init (["prog", "-d", "10"].map String.toList))
        "d:".toList).1.optarg = some "10".toList := by
  refine ⟨by decide, by decide, by decide, by decide, by decide, ?_⟩
  have h := (C4_short_required_value
    (optparse_init (["prog", "-d", "10"].map String.toList)) "d:".toList
    ['-', 'd'] (by decide) (by decide) (by decide)).2.1 (by decide)
    "10".toList (by decide)
  rw [h]

/-- Characterization of the shifting loop of `optparse__permute`: `k` steps
of `argv[i] = argv[i+1]` move the slice `argv[i+1 .. i+k]` one slot left,
leaving `argv[i+k]` duplicated. -/
lemma optparse__shift_eq :
    ∀ (k i : Nat) (argv : List (List Char)), i + k < argv.length →
    optparse__shift argv i k =
      argv.take i ++ (argv.drop (i + 1)).take k ++ argv.drop (i + k)
  | 0, i, argv, h => by
    simp [optparse__shift, List.take_append_drop]
  | k + 1, i, argv, h => by
    have hi1 : i + 1 < argv.length := by omega
    have hi : i < argv.length := by omega
    have hx : argv.getD (i + 1) [] = argv[i + 1] := List.getD_eq_getElem _ _ hi1
    have hA : argv.set i (argv.getD (i + 1) []) =
        argv.take i ++ argv[i + 1] :: argv.drop (i + 1) := by
      rw [hx, List.set_eq_take_append_cons_drop, if_pos hi]
    have ih := optparse__shift_eq k (i + 1) (argv.set i (argv.getD (i + 1) []))
      (by simp only [List.length_set]; omega)
    rw [optparse__shift, ih, hA]
    have htake : (argv.take i).length = i := by
      simp only [List.length_take]; omega
    have e1 := @List.take_append (List Char) (argv.take i)
      (argv[i + 1] :: argv.drop (i + 1)) 1
    rw [htake] at e1
    have e2 := @List.drop_append (List Char) (argv.take i)
      (argv[i + 1] :: argv.drop (i + 1)) 2
    rw [htake] at e2
    have e3 := @List.drop_append (List Char) (argv.take i)
      (argv[i + 1] :: argv.drop (i + 1)) (1 + k)
    rw [htake] at e3
    rw [show i + 1 + 1 = i + 2 by omega, show i + 1 + k = i + (1 + k) by omega,
      e1, e2, e3]
    have d2 : (argv[i + 1] :: argv.drop (i + 1)).drop 2 = argv.drop (i + 2) := by
      rw [show (2 : Nat) = 1 + 1 from rfl, List.drop_succ_cons, List.drop_drop]
    have d3 : (argv[i + 1] :: argv.drop (i + 1)).drop (1 + k) =
        argv.drop (i + (k + 1)) := by
      rw [show 1 + k = k + 1 by omega, List.drop_succ_cons, List.drop_drop]
      congr 1
      omega
    rw [d2, d3]
    rw [List.drop_eq_getElem_cons hi1]
    rw [show (argv[i + 1] :: argv.drop (i + 1 + 1)).take (k + 1) =
      argv[i + 1] :: (argv.drop (i + 1 + 1)).take k from rfl]
    simp only [List.append_assoc, List.cons_append, List.nil_append,
      List.singleton_append, List.take_succ_cons, List.take_zero]

/-- Token array of the permutation scenario. -/
def permute_argv : List (List Char) :=
  ["prog", "pos1", "--flag", "pos2"].map String.toList

/-- Long option table of the permutation scenario. -/
def permute_longopts : List optparse_long_t :=
  [⟨some "flag".toList, ('f'.toNat : Int), OPTPARSE_NONE⟩,
   ⟨none, 0, OPTPARSE_NONE⟩]

/-- C2: `optparse__permute` only rotates the token at `index` to position
`optind - 1`: the tokens before `index`, the slice between them, and the
tokens from `optind` on keep their relative order, so only the partition
boundary moves.  In the scenario `[prog, pos1, --flag, pos2]` the flag is
consumed, done is signaled, and draining positionals yields `pos1` then
`pos2`. -/
theorem C2_permute_preserves_order (st : optparse_t) (index : Nat)
    (h1 : index < st.optind) (h2 : st.optind ≤ st.argv.length) :
    ((optparse__permute st index).argv =
      st.argv.take index ++
        (st.argv.drop (index + 1)).take (st.optind - 1 - index) ++
        st.argv.getD index [] :: st.argv.drop st.optind) ∧
    (let s0 := optparse_init permute_argv
     let p1 := optparse_long s0 permute_longopts none
     let p2 := optparse_long p1.1 permute_longopts none
     let a1 := optparse_arg p2.1
     let a2 := optparse_arg a1.1
     p1.2.1 = ('f'.toNat : Int) ∧ p2.2.1 = -1 ∧
       p2.1.argv = ["prog", "--flag", "pos1", "pos2"].map String.toList ∧
       a1.2 = some "pos1".toList ∧ a2.2 = some "pos2".toList) := by
  constructor
  · have hlen : 0 < st.argv.length := by omega
    have hlt : st.optind - 1 < st.argv.length := by omega
    simp only [optparse__permute]
    rw [optparse__shift_eq (st.optind - 1 - index) index st.argv (by omega)]
    rw [show index + (st.optind - 1 - index) = st.optind - 1 by omega]
    have hseg : ((st.argv.drop (index + 1)).take (st.optind - 1 - index)).length =
        st.optind - 1 - index := by
      simp only [List.length_take, List.length_drop]
      omega
    have hplen : (st.argv.take index ++
        (st.argv.drop (index + 1)).take (st.optind - 1 - index)).length =
        st.optind - 1 := by
      simp only [List.length_append, List.length_take, hseg]
      omega
    rw [List.set_append_right _ _ (le_of_eq hplen)]
    rw [hplen]
    rw [Nat.sub_self]
    rw [List.drop_eq_getElem_cons hlt]
    rw [List.set_cons_zero]
    rw [show st.optind - 1 + 1 = st.optind by omega]
  · simp [optparse_long, optparse, optparse_init, optparse_arg, permute_argv,
      permute_longopts, optparse__is_dashdash, optparse__is_shortopt,
      optparse__is_longopt, optparse__long_loop, optparse__long_fallback,
      optparse__longopts_match, optparse__match_go, optparse__longopts_arg,
      optparse__from_long, optparse_longopts_end, optparse__permute,
      optparse__shift, optparse__argtype, strAt, OPTPARSE_NONE,
      OPTPARSE_REQUIRED, OPTPARSE_OPTIONAL]

/-- C2 witness: rotating index 1 to the boundary in a three-token state. -/
theorem C2_witness :
    ((1 : Nat) < (2 : Nat) ∧ (2 : Nat) ≤
      (optparse_t.mk (["a", "b", "c"].map String.toList) true 2 0 none [] 0).argv.length) ∧
    (optparse__permute
        (optparse_t.mk (["a", "b", "c"].map String.toList) true 2 0 none [] 0) 1).argv =
      (["a", "b", "c"].map String.toList).take 1 ++
        ((["a", "b", "c"].map String.toList).drop 2).take 0 ++
        (["a", "b", "c"].map String.toList).getD 1 [] ::
          (["a", "b", "c"].map String.toList).drop 2 :=
  ⟨⟨by decide, by decide⟩,
   (C2_permute_preserves_order
     (optparse_t.mk (["a", "b", "c"].map String.toList) true 2 0 none [] 0) 1
     (by decide) (by decide)).1⟩

/-- The name-comparison loop accepts exactly the token text before the first
`=` (or the whole token). -/
lemma optparse__match_go_iff :
    ∀ (a n : List Char),
    optparse__match_go a n = true ↔ n = a.takeWhile (fun x => x != '=')
  | [], n => by
    simp [optparse__match_go, List.isEmpty_iff]
  | c :: ta, [] => by
    by_cases hc : c = '='
    · subst hc
      simp [optparse__match_go, List.takeWhile_cons]
    · simp [optparse__match_go, List.takeWhile_cons, hc]
  | c :: ta, d :: tn => by
    by_cases hc : c = '='
    · subst hc
      simp [optparse__match_go, List.takeWhile_cons]
    · by_cases hcd : c = d
      · subst hcd
        have ih := optparse__match_go_iff ta tn
        simp [optparse__match_go, List.takeWhile_cons, hc, ih]
      · simp [optparse__match_go, List.takeWhile_cons, hc, hcd]
        intro h
        exact absurd h.symm hcd

/-- The descriptor loop skips a block of non-matching, non-terminator
entries, scanning strictly in order. -/
lemma optparse__long_loop_skip (st : optparse_t) (li : Option Int)
    (option : List Char) :
    ∀ (pre rest : List optparse_long_t) (i : Int),
    (∀ o ∈ pre, optparse_longopts_end o = false ∧
        optparse__longopts_match o.longname option = false) →
    optparse__long_loop st li option (pre ++ rest) i =
      optparse__long_loop st li option rest (i + pre.length)
  | [], rest, i, h => by simp
  | o :: pre, rest, i, h => by
    have ho := h o (by simp)
    have ih := optparse__long_loop_skip st li option pre rest (i + 1)
      (fun x hx => h x (by simp [hx]))
    rw [List.cons_append, optparse__long_loop.eq_def]
    simp only [ho.1, ho.2, Bool.not_false, Bool.false_eq_true, if_false, if_true]
    rw [ih]
    congr 1
    simp only [List.length_cons]
    push_cast
    ring

/-- Long option table with the single entry `color` (optional value). -/
def color_longopts : List optparse_long_t :=
  [⟨some "color".toList, ('c'.toNat : Int), OPTPARSE_OPTIONAL⟩,
   ⟨none, 0, OPTPARSE_NONE⟩]

/-- Parse of `--color=red` against the `color` table. -/
def color_parse1 : optparse_t × Int × Option Int :=
  optparse_long (optparse_init (["prog", "--color=red"].map String.toList))
    color_longopts none

/-- Parse of `--color` against the `color` table. -/
def color_parse2 : optparse_t × Int × Option Int :=
  optparse_long (optparse_init (["prog", "--color"].map String.toList))
    color_longopts none

/-- Parse of `--colorful` against the `color` table. -/
def color_parse3 : optparse_t × Int × Option Int :=
  optparse_long (optparse_init (["prog", "--colorful"].map String.toList))
    color_longopts none

/-- C5: long-option matching is an exact comparison of the name with the
token text up to end-of-token or a literal `=` (never a prefix match), the
table is scanned in order with non-matching entries skipped, and for the
entry `color`: `--color=red` matches with value `red`, `--color` matches
with no value, `--colorful` is an invalid option. -/
theorem C5_long_exact_match :
    (∀ (n a : List Char),
      optparse__longopts_match (some n) a = true ↔
        n = a.takeWhile (fun x => x != '=')) ∧
    (∀ (st : optparse_t) (li : Option Int) (option : List Char)
        (pre rest : List optparse_long_t) (i : Int),
      (∀ o ∈ pre, optparse_longopts_end o = false ∧
          optparse__longopts_match o.longname option = false) →
      optparse__long_loop st li option (pre ++ rest) i =
        optparse__long_loop st li option rest (i + pre.length)) ∧
    (color_parse1.2.1 = ('c'.toNat : Int) ∧
      color_parse1.1.optarg = some "red".toList) ∧
    (color_parse2.2.1 = ('c'.toNat : Int) ∧ color_parse2.1.optarg = none) ∧
    (color_parse3.2.1 = 63 ∧
      color_parse3.1.errmsg = "invalid option -- 'colorful'".toList) := by
  refine ⟨fun n a => optparse__match_go_iff a n,
    fun st li option pre rest i h => optparse__long_loop_skip st li option pre rest i h,
    ?_, ?_, ?_⟩ <;>
    simp [color_parse1, color_parse2, color_parse3,
      optparse_long, optparse, optparse_init, color_longopts,
      optparse__is_dashdash, optparse__is_shortopt, optparse__is_longopt,
      optparse__long_loop, optparse__long_fallback, optparse__longopts_match,
      optparse__match_go, optparse__longopts_arg, optparse__from_long,
      optparse_longopts_end, optparse__argtype, strAt, OPTPARSE_NONE,
      OPTPARSE_REQUIRED, OPTPARSE_OPTIONAL, optparse__error,
      optparse__error_fmt, OPTPARSE_MSG_INVALID, OPTPARSE_MSG_MISSING,
      OPTPARSE_MSG_TOOMANY]

/-- C5 witness: skipping the non-matching `color` entry for token `x`. -/
theorem C5_witness :
    (∀ o ∈ [(⟨some "color".toList, ('c'.toNat : Int), OPTPARSE_OPTIONAL⟩ : optparse_long_t)],
      optparse_longopts_end o = false ∧
        optparse__longopts_match o.longname "x".toList = false) ∧
    optparse__long_loop (optparse_init (["prog"].map String.toList)) none
        "x".toList
        ([(⟨some "color".toList, ('c'.toNat : Int), OPTPARSE_OPTIONAL⟩ : optparse_long_t)] ++ []) 0 =
      optparse__long_loop (optparse_init (["prog"].map String.toList)) none
        "x".toList []
        (0 + ([(⟨some "color".toList, ('c'.toNat : Int), OPTPARSE_OPTIONAL⟩ : optparse_long_t)].length : Int)) :=
  ⟨by decide,
   C5_long_exact_match.2.1 (optparse_init (["prog"].map String.toList)) none
     "x".toList
     [(⟨some "color".toList, ('c'.toNat : Int), OPTPARSE_OPTIONAL⟩ : optparse_long_t)]
     [] 0 (by decide)⟩

/-- Errors set by `optparse` are built by `optparse__error` from one of the
two short-option messages; on every other path the message is left empty. -/
lemma optparse_errmsg_spec (n : Nat) :
    ∀ (st : optparse_t) (s : List Char), st.argv.length - st.optind ≤ n →
    (optparse st s).1.errmsg = [] ∨
      ((∃ d, (optparse st s).1.errmsg = optparse__error_fmt OPTPARSE_MSG_INVALID d ∨
        (optparse st s).1.errmsg = optparse__error_fmt OPTPARSE_MSG_MISSING d) ∧
        (optparse st s).2 = 63) := by
  induction n with
  | zero =>
    intro st s hn
    rw [optparse.eq_def]
    split
    next heq => simp
    next option heq =>
      exfalso
      rw [List.get?_eq_none.mpr (by omega)] at heq
      exact Option.noConfusion heq
  | succ m ih =>
    intro st s hn
    rw [optparse.eq_def]
    split
    next heq => simp
    next option heq =>
      have hlt : st.optind < st.argv.length := by
        by_contra hge
        rw [List.get?_eq_none.mpr (Nat.le_of_not_lt hge)] at heq
        exact Option.noConfusion heq
      split
      · simp
      · dsimp only
        split
        · split
          · -- permute branch: use induction hypothesis on the advanced state
            have h2 := ih { st with
              errmsg := ([] : List Char), optopt := 0, optarg := none,
              optind := st.optind + 1 } s (by simp; omega)
            rcases h2 with h2 | ⟨⟨d, hd⟩, h63⟩
            · left
              simpa [optparse__permute] using h2
            · right
              refine ⟨⟨d, ?_⟩, by simpa using h63⟩
              simpa [optparse__permute] using hd
          · simp
        · -- short-option switch
          split
          · right
            refine ⟨⟨[strAt (List.drop (st.subopt + 1) option) 0],
              Or.inl ?_⟩, ?_⟩ <;> simp [optparse__error]
          · split
            · left; split <;> simp
            · split
              · split
                · left; simp
                · split
                  · left; simp
                  · right
                    refine ⟨⟨[strAt (List.drop (st.subopt + 1) option) 0],
                      Or.inr ?_⟩, ?_⟩ <;> simp [optparse__error]
              · split
                · left; simp
                · left; simp

/-- Shape of a formatted error message when the reason phrase is short
enough for the phrase and separator to fit: the offending data is truncated
to the space remaining before the closing quote, and the total never
exceeds 63 characters. -/
lemma optparse__error_fmt_eq (msg data : List Char) (h : msg.length + 5 ≤ 62) :
    optparse__error_fmt msg data =
      msg ++ " -- '".toList ++ data.take (57 - msg.length) ++ [Char.ofNat 39] ∧
    (optparse__error_fmt msg data).length ≤ 63 := by
  have hsep : (" -- '".toList).length = 5 := by decide
  simp only [optparse__error_fmt]
  rw [List.take_of_length_le (by omega)]
  rw [List.take_of_length_le (by rw [hsep]; omega)]
  have hm2 : (msg ++ " -- '".toList).length = msg.length + 5 := by
    rw [List.length_append, hsep]
  rw [show 62 - (msg ++ " -- '".toList).length = 57 - msg.length by
    rw [hm2]; omega]
  have hlen : (msg ++ " -- '".toList ++ data.take (57 - msg.length)).length < 63 := by
    simp only [List.length_append, hsep, List.length_take]
    omega
  rw [if_pos hlen]
  constructor
  · simp [List.append_assoc]
  · simp only [List.length_append, hsep, List.length_take, List.length_cons,
      List.length_nil]
    omega

/-- The descriptor-table loop either leaves the error message unchanged or
stores one of the three formatted messages and returns the error code. -/
lemma optparse__long_loop_errmsg (li : Option Int) (opt : List Char) :
    ∀ (l : List optparse_long_t) (st : optparse_t) (i : Int),
    (optparse__long_loop st li opt l i).1.errmsg = st.errmsg ∨
      ((∃ d, (optparse__long_loop st li opt l i).1.errmsg =
          optparse__error_fmt OPTPARSE_MSG_INVALID d ∨
        (optparse__long_loop st li opt l i).1.errmsg =
          optparse__error_fmt OPTPARSE_MSG_MISSING d ∨
        (optparse__long_loop st li opt l i).1.errmsg =
          optparse__error_fmt OPTPARSE_MSG_TOOMANY d) ∧
        (optparse__long_loop st li opt l i).2.1 = 63)
  | [], st, i => by
    right
    refine ⟨⟨opt, Or.inl ?_⟩, ?_⟩ <;> simp [optparse__long_loop, optparse__error]
  | o :: rest, st, i => by
    rw [optparse__long_loop.eq_def]
    dsimp only
    split
    · right
      refine ⟨⟨opt, Or.inl ?_⟩, ?_⟩ <;> simp [optparse__error]
    · split
      · exact optparse__long_loop_errmsg li opt rest st (i + 1)
      · split
        · right
          refine ⟨⟨o.longname.getD [], Or.inr (Or.inr ?_)⟩, ?_⟩ <;>
            simp [optparse__error]
        · split
          · left; rfl
          · split
            · split
              · right
                refine ⟨⟨o.longname.getD [], Or.inr (Or.inl ?_)⟩, ?_⟩ <;>
                  simp [optparse__error]
              · left; rfl
            · left; rfl

/-- Errors set by `optparse_long` use one of the three messages; otherwise
the message is cleared, or left untouched on the done-returning paths. -/
lemma optparse_long_errmsg_spec (n : Nat) :
    ∀ (st : optparse_t) (lo : List optparse_long_t) (li : Option Int),
      st.argv.length - st.optind ≤ n →
    ((optparse_long st lo li).1.errmsg = st.errmsg ∧
      (optparse_long st lo li).2.1 = -1) ∨
    (optparse_long st lo li).1.errmsg = [] ∨
      ((∃ d, (optparse_long st lo li).1.errmsg =
          optparse__error_fmt OPTPARSE_MSG_INVALID d ∨
        (optparse_long st lo li).1.errmsg =
          optparse__error_fmt OPTPARSE_MSG_MISSING d ∨
        (optparse_long st lo li).1.errmsg =
          optparse__error_fmt OPTPARSE_MSG_TOOMANY d) ∧
        (optparse_long st lo li).2.1 = 63) := by
  induction n with
  | zero =>
    intro st lo li hn
    rw [optparse_long.eq_def]
    split
    next heq => left; exact ⟨rfl, rfl⟩
    next option heq =>
      exfalso
      rw [List.get?_eq_none.mpr (by omega)] at heq
      exact Option.noConfusion heq
  | succ m ih =>
    intro st lo li hn
    rw [optparse_long.eq_def]
    split
    next heq => left; exact ⟨rfl, rfl⟩
    next option heq =>
      have hlt : st.optind < st.argv.length := by
        by_contra hge
        rw [List.get?_eq_none.mpr (Nat.le_of_not_lt hge)] at heq
        exact Option.noConfusion heq
      split
      · left; exact ⟨rfl, rfl⟩
      · split
        · -- short-option fallback delegates to optparse
          have hs := optparse_errmsg_spec
            (st.argv.length - st.optind)
            st (optparse__from_long lo) le_rfl
          rcases hs with hs | ⟨⟨d, hd⟩, h63⟩
          · right; left
            simpa [optparse__long_fallback] using hs
          · right; right
            refine ⟨⟨d, ?_⟩, by simpa [optparse__long_fallback] using h63⟩
            rcases hd with hd | hd
            · exact Or.inl (by simpa [optparse__long_fallback] using hd)
            · exact Or.inr (Or.inl (by simpa [optparse__long_fallback] using hd))
        · dsimp only
          split
          · split
            · -- permutation branch
              have h2 := ih { st with optind := st.optind + 1 } lo li
                (by simp; omega)
              rcases h2 with ⟨he, hr⟩ | h2 | ⟨⟨d, hd⟩, h63⟩
              · left
                constructor
                · simpa [optparse__permute] using he
                · simpa using hr
              · right; left
                simpa [optparse__permute] using h2
              · right; right
                refine ⟨⟨d, ?_⟩, by simpa using h63⟩
                rcases hd with hd | hd | hd
                · exact Or.inl (by simpa [optparse__permute] using hd)
                · exact Or.inr (Or.inl (by simpa [optparse__permute] using hd))
                · exact Or.inr (Or.inr (by simpa [optparse__permute] using hd))
            · left; exact ⟨rfl, rfl⟩
          · -- long-option table scan
            have hl := optparse__long_loop_errmsg li (option.drop 2) lo
              { st with
                errmsg := ([] : List Char), optopt := 0, optarg := none,
                optind := st.optind + 1 } 0
            rcases hl with hl | ⟨⟨d, hd⟩, h63⟩
            · right; left
              simpa using hl
            · right; right
              exact ⟨⟨d, hd⟩, h63⟩

/-- Terminator-only table for the stale-message scenario. -/
def stale_longopts : List optparse_long_t := [⟨none, 0, OPTPARSE_NONE⟩]

/-- First call over `[prog, -x]`: `-x` is invalid, an error is stored. -/
def stale_parse1 : optparse_t × Int × Option Int :=
  optparse_long (optparse_init (["prog", "-x"].map String.toList))
    stale_longopts none

/-- Second call on the same state: the tokens are exhausted. -/
def stale_parse2 : optparse_t × Int × Option Int :=
  optparse_long stale_parse1.1 stale_longopts none

/-- C6 counterexample: after an error, a further `optparse_long` call that
returns the done sentinel `-1` leaves the stale error message in place, so
the message is not empty after a non-error call. -/
theorem C6_counterexample :
    stale_parse1.2.1 = 63 ∧ stale_parse2.2.1 = -1 ∧
    stale_parse2.1.errmsg = "invalid option -- 'x'".toList := by
  refine ⟨?_, ?_, ?_⟩ <;>
    simp [stale_parse1, stale_parse2, stale_longopts, optparse_long, optparse,
      optparse_init, optparse__long_fallback, optparse__from_long,
      optparse_longopts_end, optparse__is_dashdash, optparse__is_shortopt,
      optparse__is_longopt, optparse__argtype, strAt, optparse__error,
      optparse__error_fmt, OPTPARSE_MSG_INVALID, OPTPARSE_MSG_MISSING,
      OPTPARSE_MSG_TOOMANY, OPTPARSE_NONE]

/-- C6 amended: every `optparse` call that does not return the error
sentinel leaves the message empty, regardless of earlier errors; for
`optparse_long` this holds whenever the current token is an option token
(short-style or long-style) — the done-returning paths of `optparse_long`
(no token, standalone `--`, non-option in strict mode) leave the field
unchanged instead. -/
theorem C6_amended (st : optparse_t) (s : List Char)
    (lo : List optparse_long_t) (li : Option Int) (tok : List Char) :
    ((optparse st s).2 ≠ 63 → (optparse st s).1.errmsg = []) ∧
    (st.argv.get? st.optind = some tok →
      (optparse__is_shortopt tok = true ∨ optparse__is_longopt tok = true) →
      (optparse_long st lo li).2.1 ≠ 63 →
      (optparse_long st lo li).1.errmsg = []) := by
  constructor
  · intro hne
    rcases optparse_errmsg_spec (st.argv.length - st.optind) st s le_rfl with
      h | ⟨_, h63⟩
    · exact h
    · exact absurd h63 hne
  · intro htok hopt hne
    rcases hopt with hso | hlo
    · have heq_call : optparse_long st lo li = optparse__long_fallback st lo li := by
        rw [optparse_long.eq_def]
        split
        next heq => rw [htok] at heq; exact absurd heq (by simp)
        next option heq =>
          rw [htok] at heq
          injection heq with heq
          subst heq
          simp [shortopt_not_dashdash hso, hso]
      rw [heq_call] at hne ⊢
      rcases optparse_errmsg_spec (st.argv.length - st.optind) st
        (optparse__from_long lo) le_rfl with h | ⟨_, h63⟩
      · simpa [optparse__long_fallback] using h
      · exact absurd (by simpa [optparse__long_fallback] using h63)
          (by simpa [optparse__long_fallback] using hne)
    · have heq_call : optparse_long st lo li =
          optparse__long_loop
            { st with
              errmsg := ([] : List Char), optopt := 0, optarg := none,
              optind := st.optind + 1 } li (tok.drop 2) lo 0 := by
        rw [optparse_long.eq_def]
        split
        next heq => rw [htok] at heq; exact absurd heq (by simp)
        next option heq =>
          rw [htok] at heq
          injection heq with heq
          subst heq
          simp [longopt_not_dashdash hlo, longopt_not_shortopt hlo, hlo]
      rw [heq_call] at hne ⊢
      rcases optparse__long_loop_errmsg li (tok.drop 2) lo
        { st with
          errmsg := ([] : List Char), optopt := 0, optarg := none,
          optind := st.optind + 1 } 0 with h | ⟨_, h63⟩
      · simpa using h
      · exact absurd h63 hne

/-- C6 witness: the scenario `[prog, -x]` with specification `x`. -/
theorem C6_witness :
    ((optparse_init (["prog", "-x"].map String.toList)).argv.get?
        (optparse_init (["prog", "-x"].map String.toList)).optind =
      some ['-', 'x']) ∧
    (optparse__is_shortopt ['-', 'x'] = true ∨
      optparse__is_longopt ['-', 'x'] = true) ∧
    ((optparse (optparse_init (["prog", "-x"].map String.toList))
        "x".toList).2 ≠ 63 →
      (optparse (optparse_init (["prog", "-x"].map String.toList))
        "x".toList).1.errmsg = []) :=
  ⟨by decide, Or.inl (by decide),
   (C6_amended (optparse_init (["prog", "-x"].map String.toList)) "x".toList
     stale_longopts none ['-', 'x']).1⟩

/-- C8: every stored error message is built from one of the three fixed
reason phrases in the exact shape phrase, `-- '`, offending data (truncated
to the remaining space), closing quote, and never exceeds 63 characters;
`optparse` only ever stores the invalid-option or missing-argument message,
`optparse_long` additionally the too-many-arguments message (or leaves the
field untouched on its done paths). -/
theorem C8_error_message_shape :
    (∀ (msg data : List Char),
      msg = OPTPARSE_MSG_INVALID ∨ msg = OPTPARSE_MSG_MISSING ∨
        msg = OPTPARSE_MSG_TOOMANY →
      optparse__error_fmt msg data =
        msg ++ " -- '".toList ++ data.take (57 - msg.length) ++ [Char.ofNat 39] ∧
      (optparse__error_fmt msg data).length ≤ 63) ∧
    (∀ (st : optparse_t) (s : List Char),
      (optparse st s).1.errmsg = [] ∨ ∃ d,
        (optparse st s).1.errmsg = optparse__error_fmt OPTPARSE_MSG_INVALID d ∨
        (optparse st s).1.errmsg = optparse__error_fmt OPTPARSE_MSG_MISSING d) ∧
    (∀ (st : optparse_t) (lo : List optparse_long_t) (li : Option Int),
      (optparse_long st lo li).1.errmsg = st.errmsg ∨
      (optparse_long st lo li).1.errmsg = [] ∨ ∃ d,
        (optparse_long st lo li).1.errmsg =
          optparse__error_fmt OPTPARSE_MSG_INVALID d ∨
        (optparse_long st lo li).1.errmsg =
          optparse__error_fmt OPTPARSE_MSG_MISSING d ∨
        (optparse_long st lo li).1.errmsg =
          optparse__error_fmt OPTPARSE_MSG_TOOMANY d) := by
  refine ⟨?_, ?_, ?_⟩
  · intro msg data h
    rcases h with rfl | rfl | rfl <;>
      exact optparse__error_fmt_eq _ data (by decide)
  · intro st s
    rcases optparse_errmsg_spec (st.argv.length - st.optind) st s le_rfl with
      h | ⟨⟨d, hd⟩, _⟩
    · exact Or.inl h
    · exact Or.inr ⟨d, hd⟩
  · intro st lo li
    rcases optparse_long_errmsg_spec (st.argv.length - st.optind) st lo li
      le_rfl with ⟨h, _⟩ | h | ⟨⟨d, hd⟩, _⟩
    · exact Or.inl h
    · exact Or.inr (Or.inl h)
    · exact Or.inr (Or.inr ⟨d, hd⟩)

/-- C8 witness: the missing-argument message for data `x`. -/
theorem C8_witness :
    (OPTPARSE_MSG_MISSING = OPTPARSE_MSG_INVALID ∨
      OPTPARSE_MSG_MISSING = OPTPARSE_MSG_MISSING ∨
      OPTPARSE_MSG_MISSING = OPTPARSE_MSG_TOOMANY) ∧
    optparse__error_fmt OPTPARSE_MSG_MISSING "x".toList =
      OPTPARSE_MSG_MISSING ++ " -- '".toList ++
        ("x".toList).take (57 - OPTPARSE_MSG_MISSING.length) ++ [Char.ofNat 39] ∧
    (optparse__error_fmt OPTPARSE_MSG_MISSING "x".toList).length ≤ 63 :=
  ⟨Or.inr (Or.inl rfl),
   (C8_error_message_shape.1 OPTPARSE_MSG_MISSING "x".toList
     (Or.inr (Or.inl rfl))).1,
   (C8_error_message_shape.1 OPTPARSE_MSG_MISSING "x".toList
     (Or.inr (Or.inl rfl))).2⟩

/-- The fallback's search loop is the index of the first descriptor before
the terminator whose short name equals the given code, offset by the start
index. -/
lemma optparse__longindex_search_eq (c : Int) :
    ∀ (l : List optparse_long_t) (i : Int),
    optparse__longindex_search c l i =
      ((l.takeWhile (fun o => !optparse_longopts_end o)).findIdx?
        (fun o => o.shortname == c)).map (fun j => i + (j : Int))
  | [], i => by
    simp [optparse__longindex_search]
  | o :: rest, i => by
    by_cases he : optparse_longopts_end o = true
    · simp [optparse__longindex_search, he, List.takeWhile_cons]
    · have he' : optparse_longopts_end o = false := by
        simpa using he
      by_cases hc : o.shortname = c
      · simp [optparse__longindex_search, he', hc, List.takeWhile_cons,
          List.findIdx?_cons]
      · have ih := optparse__longindex_search_eq c rest (i + 1)
        simp only [optparse__longindex_search, he', hc, if_false,
          Bool.false_eq_true, List.takeWhile_cons, Bool.not_false, if_true,
          List.findIdx?_cons, beq_iff_eq, ih, List.findIdx?_succ]
        cases (rest.takeWhile (fun o => !optparse_longopts_end o)).findIdx?
            (fun o => o.shortname == c) with
        | none => simp
        | some j =>
          simp
          ring

/-- Table with entry `delta` (short `d`, required value) for the fallback
scenario. -/
def fallback_longopts : List optparse_long_t :=
  [⟨some "delta".toList, ('d'.toNat : Int), OPTPARSE_REQUIRED⟩,
   ⟨none, 0, OPTPARSE_NONE⟩]

/-- Parse of `[prog, -d]` (missing required argument) with an index slot. -/
def fallback_parse : optparse_t × Int × Option Int :=
  optparse_long (optparse_init (["prog", "-d"].map String.toList))
    fallback_longopts (some 5)

/-- C7 counterexample: the delegated short scan signals a missing-argument
error (`?`), yet the index slot receives 0 — the index of the `delta`
entry whose short name matches the recorded character — not the claimed
no-match value `-1`. -/
theorem C7_counterexample :
    fallback_parse.2.1 = 63 ∧ fallback_parse.2.2 = some 0 := by
  constructor <;>
    simp [fallback_parse, fallback_longopts, optparse_long, optparse,
      optparse_init, optparse__long_fallback, optparse__from_long,
      optparse_longopts_end, optparse__longindex_search,
      optparse__is_dashdash, optparse__is_shortopt, optparse__is_longopt,
      optparse__argtype, strAt, optparse__error, optparse__error_fmt,
      OPTPARSE_MSG_INVALID, OPTPARSE_MSG_MISSING, OPTPARSE_MSG_TOOMANY,
      OPTPARSE_NONE, OPTPARSE_REQUIRED, OPTPARSE_OPTIONAL]

/-- C7 amended: on a short-style token, `optparse_long` delegates to the
short scanner over the specification synthesized from the table, and a
supplied index slot receives the index of the first pre-terminator entry
whose short name equals the `optopt` recorded by the delegated call — also
after an error — or `-1` when the delegated call returned done or no entry
matches. -/
theorem C7_amended (st : optparse_t) (lo : List optparse_long_t)
    (li : Option Int) (v : Int) (tok : List Char)
    (hli : li = some v)
    (htok : st.argv.get? st.optind = some tok)
    (hshort : optparse__is_shortopt tok = true) :
    optparse_long st lo li =
      ((optparse st (optparse__from_long lo)).1,
       (optparse st (optparse__from_long lo)).2,
       some (if (optparse st (optparse__from_long lo)).2 = -1 then -1
         else
           match (lo.takeWhile (fun o => !optparse_longopts_end o)).findIdx?
               (fun o => o.shortname ==
                 (optparse st (optparse__from_long lo)).1.optopt) with
           | some j => (j : Int)
           | none => -1)) := by
  subst hli
  have heq_call : optparse_long st lo (some v) =
      optparse__long_fallback st lo (some v) := by
    rw [optparse_long.eq_def]
    split
    next heq => rw [htok] at heq; exact absurd heq (by simp)
    next option heq =>
      rw [htok] at heq
      injection heq with heq
      subst heq
      simp [shortopt_not_dashdash hshort, hshort]
  rw [heq_call]
  simp only [optparse__long_fallback]
  rw [optparse__longindex_search_eq]
  by_cases hr : (optparse st (optparse__from_long lo)).2 = -1
  · simp [hr]
  · simp only [hr, if_neg hr, ne_eq, not_false_iff, if_true]
    cases (lo.takeWhile (fun o => !optparse_longopts_end o)).findIdx?
        (fun o => o.shortname == (optparse st (optparse__from_long lo)).1.optopt) with
    | none => simp [hr]
    | some j => simp [hr]

/-- C7 witness: the `[prog, -d]` scenario with slot content 5. -/
theorem C7_witness :
    (some (5 : Int) = some (5 : Int)) ∧
    ((optparse_init (["prog", "-d"].map String.toList)).argv.get?
        (optparse_init (["prog", "-d"].map String.toList)).optind =
      some ['-', 'd']) ∧
    optparse__is_shortopt ['-', 'd'] = true ∧
    optparse_long (optparse_init (["prog", "-d"].map String.toList))
        fallback_longopts (some 5) =
      ((optparse (optparse_init (["prog", "-d"].map String.toList))
          (optparse__from_long fallback_longopts)).1,
       (optparse (optparse_init (["prog", "-d"].map String.toList))
          (optparse__from_long fallback_longopts)).2,
       some (if (optparse (optparse_init (["prog", "-d"].map String.toList))
            (optparse__from_long fallback_longopts)).2 = -1 then -1
         else
           match (fallback_longopts.takeWhile
               (fun o => !optparse_longopts_end o)).findIdx?
               (fun o => o.shortname ==
                 (optparse (optparse_init (["prog", "-d"].map String.toList))
                   (optparse__from_long fallback_longopts)).1.optopt) with
           | some j => (j : Int)
           | none => -1)) :=
  ⟨rfl, by decide, by decide,
   C7_amended (optparse_init (["prog", "-d"].map String.toList))
     fallback_longopts (some 5) 5 ['-', 'd'] rfl (by decide) (by decide)⟩

/-- When no table entry matches, the descriptor loop never writes the index
slot. -/
lemma optparse__long_loop_li_frame (st : optparse_t) (li : Option Int)
    (opt : List Char) :
    ∀ (l : List optparse_long_t) (i : Int),
    (∀ o ∈ l, optparse__longopts_match o.longname opt = false) →
    (optparse__long_loop st li opt l i).2.2 = li
  | [], i, h => by simp [optparse__long_loop]
  | o :: rest, i, h => by
    rw [optparse__long_loop.eq_def]
    dsimp only
    split
    · rfl
    · split
      · exact optparse__long_loop_li_frame st li opt rest (i + 1)
          (fun x hx => h x (by simp [hx]))
      · exact absurd (h o (by simp)) (by simp_all)

/-- C10: `optparse_long` leaves a supplied index slot unmodified on every
done-returning path it reaches directly (no token, standalone `--`,
non-option token in strict mode) and on a long-style token that matches no
table entry (invalid option). -/
theorem C10_longindex_frame (st : optparse_t) (lo : List optparse_long_t)
    (li : Option Int) (v : Int)
    (hli : li = some v)
    (h : st.argv.get? st.optind = none ∨
      ∃ tok, st.argv.get? st.optind = some tok ∧
        (optparse__is_dashdash tok = true ∨
         (optparse__is_dashdash tok = false ∧ optparse__is_shortopt tok = false ∧
           optparse__is_longopt tok = false ∧ st.permute = false) ∨
         (optparse__is_longopt tok = true ∧
           ∀ o ∈ lo, optparse__longopts_match o.longname (tok.drop 2) = false))) :
    (optparse_long st lo li).2.2 = li := by
  rcases h with hnone | ⟨tok, htok, hcase⟩
  · rw [optparse_long.eq_def]
    split
    next heq => rfl
    next option heq => rw [hnone] at heq; exact Option.noConfusion heq
  · rw [optparse_long.eq_def]
    split
    next heq => rfl
    next option heq =>
      rw [htok] at heq
      injection heq with heq
      subst heq
      rcases hcase with hdd | ⟨hdd, hso, hlo, hperm⟩ | ⟨hlo, hnomatch⟩
      · simp [hdd]
      · simp only [hdd, hso, hlo, hperm, Bool.false_eq_true, if_false,
          Bool.not_false, if_true]
      · simp only [longopt_not_dashdash hlo, longopt_not_shortopt hlo, hlo,
          Bool.false_eq_true, if_false, Bool.not_true, Bool.not_false, if_true]
        subst hli
        exact optparse__long_loop_li_frame _ (some v) _ lo 0 hnomatch

/-- C10 witness: an exhausted token array leaves the slot content 3 in
place. -/
theorem C10_witness :
    (some (3 : Int) = some (3 : Int)) ∧
    ((optparse_init (["prog"].map String.toList)).argv.get?
        (optparse_init (["prog"].map String.toList)).optind = none) ∧
    (optparse_long (optparse_init (["prog"].map String.toList))
        stale_longopts (some 3)).2.2 = some 3 :=
  ⟨rfl, by decide,
   C10_longindex_frame (optparse_init (["prog"].map String.toList))
     stale_longopts (some 3) 3 rfl (Or.inl (by decide))⟩
